import Mathlib

/-!
Verification of the gestion_achatss purchase-management application.

The data model follows `models_achats.py` (SQLAlchemy entities), the service
operations follow `api.py` (FastAPI routes), and the front-end cart operations
follow `gestion_achatss/app.py` (Streamlit session logic).  Persistent state is
modelled as an explicit `DB` record threaded through every operation; Python
ints are modelled as `ℤ`/`Nat` and float prices as `ℚ`.
-/

namespace GestionAchats

/-- `Produit` entity (`models_achats.py`): id, name, reference, unit price,
current stock (`stock_actuel`). -/
structure Produit where
  id : Nat
  nom : String
  reference : String
  prix_unitaire : ℚ
  stock_actuel : ℤ
deriving Repr, DecidableEq

/-- `Fournisseur` entity (`models_achats.py`). -/
structure Fournisseur where
  id : Nat
  nom : String
deriving Repr, DecidableEq

/-- `Commande` entity (`models_achats.py`): order header with supplier
reference, company, status and computed total cost. -/
structure Commande where
  id : Nat
  fournisseur_id : Nat
  societe : String
  statut : String
  cout_total : ℚ
deriving Repr, DecidableEq

/-- `DetailCommande` entity (`models_achats.py`): one order line. -/
structure DetailCommande where
  id : Nat
  commande_id : Nat
  produit_id : Nat
  quantite : ℤ
  prix_achat : ℚ
deriving Repr, DecidableEq

/-- The persistent store: the four tables plus autoincrement counters. -/
structure DB where
  produits : List Produit
  fournisseurs : List Fournisseur
  commandes : List Commande
  details : List DetailCommande
  nextProduitId : Nat
  nextFournisseurId : Nat
  nextCommandeId : Nat
  nextDetailId : Nat
deriving Repr, DecidableEq

/-- Pydantic schema `ProduitBase` (`api.py`): the body of `POST /produits/`.
The `stock_actuel` field is a plain `int`, unvalidated. -/
structure ProduitBase where
  nom : String
  reference : String
  prix_unitaire : ℚ
  stock_actuel : ℤ
deriving Repr, DecidableEq

/-- Pydantic schema `DetailCommandeBase` (`api.py`): one line of an
order-creation request. -/
structure DetailCommandeBase where
  produit_id : Nat
  quantite : ℤ
  prix_achat : ℚ
deriving Repr, DecidableEq

/-- Pydantic schema `CommandeCreate` (`api.py`): the body of `POST /commandes/`. -/
structure CommandeCreate where
  fournisseur_id : Nat
  societe : String
  statut : String
  details : List DetailCommandeBase
deriving Repr, DecidableEq

/-- `POST /produits/` (`api.py`, `create_produit`): inserts the row as sent,
with a fresh autoincrement id; no validation of `stock_actuel`. -/
def create_produit (db : DB) (p : ProduitBase) : DB × Produit :=
  let prod : Produit :=
    { id := db.nextProduitId, nom := p.nom, reference := p.reference
      prix_unitaire := p.prix_unitaire, stock_actuel := p.stock_actuel }
  ({ db with produits := db.produits ++ [prod], nextProduitId := db.nextProduitId + 1 },
   prod)

/-- The stock update of `create_commande` (`api.py` line 192-194):
`db.query(Produit).filter(Produit.id == pid).first()` followed by
`produit.stock_actuel += quantite` when the product exists, nothing otherwise. -/
def updateStock (ps : List Produit) (pid : Nat) (q : ℤ) : List Produit :=
  match ps with
  | [] => []
  | p :: rest =>
    if p.id = pid then { p with stock_actuel := p.stock_actuel + q } :: rest
    else p :: updateStock rest pid q

/-- Total cost loop of `create_commande` (`api.py` lines 164-166):
`cout_total += detail.quantite * detail.prix_achat` over the request details. -/
def coutTotal (ds : List DetailCommandeBase) : ℚ :=
  ds.foldl (fun acc d => acc + (d.quantite : ℚ) * d.prix_achat) 0

/-- The detail-processing loop of `create_commande` (`api.py` lines 180-194):
for each request detail, insert a `DetailCommande` row bound to the new order
and apply the stock update for the referenced product (if it exists). -/
def processDetails (db : DB) (cid : Nat) (ds : List DetailCommandeBase) : DB :=
  match ds with
  | [] => db
  | d :: rest =>
    let db' : DB :=
      { db with
        details := db.details ++
          [{ id := db.nextDetailId, commande_id := cid, produit_id := d.produit_id
             quantite := d.quantite, prix_achat := d.prix_achat }]
        nextDetailId := db.nextDetailId + 1
        produits := updateStock db.produits d.produit_id d.quantite }
    processDetails db' cid rest

/-- `POST /commandes/` (`api.py`, `create_commande`): compute the total, insert
the order header, then process each detail (line insert + stock increment),
and return the created header. -/
def create_commande (db : DB) (c : CommandeCreate) : DB × Commande :=
  let cmd : Commande :=
    { id := db.nextCommandeId, fournisseur_id := c.fournisseur_id
      societe := c.societe, statut := c.statut, cout_total := coutTotal c.details }
  let db1 : DB :=
    { db with commandes := db.commandes ++ [cmd], nextCommandeId := db.nextCommandeId + 1 }
  (processDetails db1 cmd.id c.details, cmd)

/-- The nested `details` relationship of a returned order: all persisted lines
whose `commande_id` is the order's id. -/
def orderDetails (db : DB) (cid : Nat) : List DetailCommande :=
  db.details.filter (fun d => d.commande_id = cid)

/-- One entry of the front-end session cart (`app.py`): quantity, unit price
and product-name snapshot, keyed by product id. -/
structure CartItem where
  quantity : ℤ
  price : ℚ
  name : String
deriving Repr, DecidableEq

/-- The session cart `st.session_state.cart`: an insertion-ordered dictionary
from product id to `CartItem`, modelled as an association list. -/
abbrev Cart := List (Nat × CartItem)

/-- A front-end session together with the service's store. -/
structure AppState where
  db : DB
  cart : Cart
deriving Repr, DecidableEq

/-- Product-name lookup performed by `add_to_cart` (`app.py` lines 830-835):
the name of the product with the given id in the loaded products table, or the
id rendered as a string when no such row exists. -/
def productName (ps : List Produit) (pid : Nat) : String :=
  match ps.find? (fun p => p.id = pid) with
  | some p => p.nom
  | none => toString pid

/-- Dictionary update of `add_to_cart` (`app.py` lines 836-841): if the key is
present, increment its quantity and overwrite price and name; otherwise insert
a fresh entry at the end. -/
def cartUpdate (c : Cart) (pid : Nat) (q : ℤ) (price : ℚ) (nm : String) : Cart :=
  match c with
  | [] => [(pid, { quantity := q, price := price, name := nm })]
  | (k, it) :: rest =>
    if k = pid then (k, { quantity := it.quantity + q, price := price, name := nm }) :: rest
    else (k, it) :: cartUpdate rest pid q price nm

/-- `add_to_cart(product_id, quantity, price)` (`app.py` lines 827-841): looks
up the current product name and updates the session cart.  It touches neither
the persisted stock nor any other store state. -/
def add_to_cart (s : AppState) (pid : Nat) (q : ℤ) (price : ℚ) : AppState :=
  let nm := productName s.db.produits pid
  { s with cart := cartUpdate s.cart pid q price nm }

/-- The request details built by `finalize_purchase` (`app.py` lines 849-863):
one `{produit_id, quantite, prix_achat}` per cart entry, in cart order. -/
def cartToDetails (c : Cart) : List DetailCommandeBase :=
  c.map (fun e => { produit_id := e.1, quantite := e.2.quantity, prix_achat := e.2.price })

/-- `finalize_purchase(fournisseur_id, societe)` (`app.py` lines 843-891):
fails on an empty cart with no side effect; otherwise sends the cart as a
`POST /commandes/` request with status "En attente" and, on success, empties
the cart.  Returns the success flag. -/
def finalize_purchase (s : AppState) (fid : Nat) (societe : String) : AppState × Bool :=
  if s.cart = [] then (s, false)
  else
    let r := create_commande s.db
      { fournisseur_id := fid, societe := societe, statut := "En attente"
        details := cartToDetails s.cart }
    ({ db := r.1, cart := [] }, true)

/-- The "Vider le Panier" handler (`app.py` lines 1270-1273): sets
`st.session_state.cart = {}` and nothing else. -/
def clear_cart (s : AppState) : AppState :=
  { s with cart := [] }

/-- Modelled from the spec: the server implementation of
`DELETE /commandes/{id}` is invoked by the front-end delete handler
(`app.py` lines 1615-1632) but is not present in `src/api.py`.  Per spec
§4.3/§6: if the order exists, add each of its lines' quantities back to the
referenced product's persisted stock (skipping a line whose product no longer
exists, continuing with the rest), then delete the order's lines, then the
order header; if the order does not exist, fail with not-found. -/
def delete_order (db : DB) (oid : Nat) : Except String DB :=
  match db.commandes.find? (fun c => c.id = oid) with
  | none => Except.error "Commande not found"
  | some _ =>
    let lines := db.details.filter (fun d => d.commande_id = oid)
    Except.ok
      { db with
        produits := lines.foldl (fun ps d => updateStock ps d.produit_id d.quantite) db.produits
        details := db.details.filter (fun d => ¬ d.commande_id = oid)
        commandes := db.commandes.filter (fun c => ¬ c.id = oid) }

/-- The operations a session may perform against the store (spec §8: product
creation plus the three cart operations). -/
inductive Op where
  | addToCart (pid : Nat) (q : ℤ) (price : ℚ)
  | clearCart
  | finalize (fid : Nat) (societe : String)
  | createProduit (p : ProduitBase)
deriving Repr

/-- One step of the session: dispatch an operation. -/
def step (s : AppState) (op : Op) : AppState :=
  match op with
  | Op.addToCart pid q price => add_to_cart s pid q price
  | Op.clearCart => clear_cart s
  | Op.finalize fid soc => (finalize_purchase s fid soc).1
  | Op.createProduit p => { s with db := (create_produit s.db p).1 }

/-- Run a sequence of operations. -/
def run (s : AppState) (ops : List Op) : AppState :=
  ops.foldl step s

/-- Observable stock of a product: the `stock_actuel` of the first row with
the given id, if any. -/
def stockOf (db : DB) (pid : Nat) : Option ℤ :=
  (db.produits.find? (fun p => p.id = pid)).map Produit.stock_actuel

/-- Entry lookup in the session cart. -/
def cartLookup (c : Cart) (pid : Nat) : Option CartItem :=
  (c.find? (fun e => e.1 = pid)).map (fun e => e.2)

/-- Total quantity held in the cart for a product id. -/
def cartQty (c : Cart) (pid : Nat) : ℤ :=
  ((c.filter (fun e => e.1 = pid)).map (fun e => e.2.quantity)).sum

/-- Sum of the quantities of a batch of (product id, quantity) stock updates
that target a given product id. -/
def sumPairs (us : List (Nat × ℤ)) (pid : Nat) : ℤ :=
  ((us.filter (fun u => u.1 = pid)).map (fun u => u.2)).sum

/-- Sum of the quantities of the request details referencing a product id. -/
def sumQuantites (ds : List DetailCommandeBase) (pid : Nat) : ℤ :=
  sumPairs (ds.map (fun d => (d.produit_id, d.quantite))) pid

/-- A batch of stock updates applied in order. -/
def applyStockUpdates (ps : List Produit) (us : List (Nat × ℤ)) : List Produit :=
  us.foldl (fun acc u => updateStock acc u.1 u.2) ps

/-- The fresh order lines inserted by `processDetails`, with their ids. -/
def newDetails (startId : Nat) (cid : Nat) : List DetailCommandeBase → List DetailCommande
  | [] => []
  | d :: rest =>
    { id := startId, commande_id := cid, produit_id := d.produit_id
      quantite := d.quantite, prix_achat := d.prix_achat } :: newDetails (startId + 1) cid rest

theorem updateStock_find_self (ps : List Produit) (pid : Nat) (q : ℤ) :
    (updateStock ps pid q).find? (fun p => p.id = pid)
      = (ps.find? (fun p => p.id = pid)).map
          (fun p => { p with stock_actuel := p.stock_actuel + q }) := by
  induction ps with
  | nil => simp [updateStock]
  | cons p rest ih =>
    by_cases h : p.id = pid
    · simp [updateStock, h]
    · simp [updateStock, h, ih]

theorem updateStock_find_other (ps : List Produit) (pid pid' : Nat) (q : ℤ)
    (hne : pid ≠ pid') :
    (updateStock ps pid q).find? (fun p => p.id = pid')
      = ps.find? (fun p => p.id = pid') := by
  induction ps with
  | nil => simp [updateStock]
  | cons p rest ih =>
    by_cases h : p.id = pid
    · have h' : ¬ p.id = pid' := by
        intro hc
        exact hne (h ▸ hc ▸ rfl)
      simp [updateStock, h, h', hne]
    · by_cases h2 : p.id = pid'
      · have h3 : ¬ pid' = pid := fun hc => h (h2.trans hc)
        simp [updateStock, h, h2, h3]
      · simp [updateStock, h, h2, ih]

theorem sumPairs_nil (pid : Nat) : sumPairs [] pid = 0 := rfl

theorem sumPairs_cons (u : Nat × ℤ) (us : List (Nat × ℤ)) (pid : Nat) :
    sumPairs (u :: us) pid
      = (if u.1 = pid then u.2 else 0) + sumPairs us pid := by
  by_cases h : u.1 = pid <;> simp [sumPairs, h]

theorem produit_add_zero (p : Produit) :
    ({ p with stock_actuel := p.stock_actuel + 0 } : Produit) = p := by
  cases p
  simp

theorem applyStockUpdates_find (us : List (Nat × ℤ)) (ps : List Produit) (pid : Nat) :
    (applyStockUpdates ps us).find? (fun p => p.id = pid)
      = (ps.find? (fun p => p.id = pid)).map
          (fun p => { p with stock_actuel := p.stock_actuel + sumPairs us pid }) := by
  induction us generalizing ps with
  | nil =>
    cases h : ps.find? (fun p => p.id = pid) with
    | none => simp [applyStockUpdates, h]
    | some p => simp [applyStockUpdates, h, sumPairs_nil, produit_add_zero]
  | cons u rest ih =>
    have hstep : applyStockUpdates ps (u :: rest)
        = applyStockUpdates (updateStock ps u.1 u.2) rest := rfl
    rw [hstep, ih]
    by_cases h : u.1 = pid
    · rw [h, updateStock_find_self]
      cases ps.find? (fun p => p.id = pid) with
      | none => simp
      | some p =>
        simp [sumPairs_cons, h]
        ring
    · rw [updateStock_find_other ps u.1 pid u.2 h]
      simp [sumPairs_cons, h]

theorem processDetails_produits (ds : List DetailCommandeBase) (db : DB) (cid : Nat) :
    (processDetails db cid ds).produits
      = applyStockUpdates db.produits (ds.map (fun d => (d.produit_id, d.quantite))) := by
  induction ds generalizing db with
  | nil => rfl
  | cons d rest ih =>
    simp only [processDetails, ih]
    rfl

theorem processDetails_details (ds : List DetailCommandeBase) (db : DB) (cid : Nat) :
    (processDetails db cid ds).details
      = db.details ++ newDetails db.nextDetailId cid ds := by
  induction ds generalizing db with
  | nil => simp [processDetails, newDetails]
  | cons d rest ih =>
    simp only [processDetails, ih, newDetails]
    simp

theorem processDetails_commandes (ds : List DetailCommandeBase) (db : DB) (cid : Nat) :
    (processDetails db cid ds).commandes = db.commandes := by
  induction ds generalizing db with
  | nil => rfl
  | cons d rest ih => simp only [processDetails, ih]

theorem newDetails_commande_id (ds : List DetailCommandeBase) (i cid : Nat) :
    ∀ d ∈ newDetails i cid ds, d.commande_id = cid := by
  induction ds generalizing i with
  | nil => simp [newDetails]
  | cons d rest ih =>
    intro x hx
    simp only [newDetails, List.mem_cons] at hx
    cases hx with
    | inl h => rw [h]
    | inr h => exact ih (i + 1) x h

theorem newDetails_proj (ds : List DetailCommandeBase) (i cid : Nat) :
    (newDetails i cid ds).map (fun d => (d.produit_id, d.quantite, d.prix_achat))
      = ds.map (fun d => (d.produit_id, d.quantite, d.prix_achat)) := by
  induction ds generalizing i with
  | nil => rfl
  | cons d rest ih => simp [newDetails, ih]

theorem coutTotal_eq_sum (ds : List DetailCommandeBase) :
    coutTotal ds = (ds.map (fun d => (d.quantite : ℚ) * d.prix_achat)).sum := by
  have haux : ∀ (l : List DetailCommandeBase) (a : ℚ),
      l.foldl (fun acc d => acc + (d.quantite : ℚ) * d.prix_achat) a
        = a + (l.map (fun d => (d.quantite : ℚ) * d.prix_achat)).sum := by
    intro l
    induction l with
    | nil => intro a; simp
    | cons d rest ih =>
      intro a
      simp [ih]
      ring
  simpa using haux ds 0

theorem create_commande_stockOf (db : DB) (c : CommandeCreate) (pid : Nat) :
    stockOf (create_commande db c).1 pid
      = (stockOf db pid).map (fun v => v + sumQuantites c.details pid) := by
  show stockOf (processDetails _ _ c.details) pid = _
  unfold stockOf
  rw [processDetails_produits]
  show ((applyStockUpdates db.produits _).find? _).map _ = _
  rw [applyStockUpdates_find]
  cases db.produits.find? (fun p => p.id = pid) with
  | none => simp
  | some p => simp [sumQuantites]

theorem filter_newDetails_self (ds : List DetailCommandeBase) (i cid : Nat) :
    (newDetails i cid ds).filter (fun d => d.commande_id = cid) = newDetails i cid ds := by
  apply List.filter_eq_self.mpr
  intro d hd
  simpa using newDetails_commande_id ds i cid d hd

theorem orderDetails_create_commande (db : DB) (c : CommandeCreate)
    (hfresh : ∀ d ∈ db.details, d.commande_id ≠ db.nextCommandeId) :
    orderDetails (create_commande db c).1 db.nextCommandeId
      = newDetails db.nextDetailId db.nextCommandeId c.details := by
  unfold orderDetails
  show ((processDetails _ _ c.details).details.filter _) = _
  rw [processDetails_details]
  rw [List.filter_append]
  have h1 : db.details.filter (fun d => d.commande_id = db.nextCommandeId) = [] := by
    apply List.filter_eq_nil_iff.mpr
    intro d hd
    simpa using hfresh d hd
  rw [h1, filter_newDetails_self]
  rfl

theorem cartQty_cons (e : Nat × CartItem) (rest : Cart) (pid : Nat) :
    cartQty (e :: rest) pid
      = (if e.1 = pid then e.2.quantity else 0) + cartQty rest pid := by
  by_cases h : e.1 = pid <;> simp [cartQty, h]

theorem cartQty_cons_self (it : CartItem) (rest : Cart) (pid : Nat) :
    cartQty ((pid, it) :: rest) pid = it.quantity + cartQty rest pid := by
  simp [cartQty]

theorem cartQty_cons_ne (k : Nat) (it : CartItem) (rest : Cart) (pid : Nat)
    (h : ¬ k = pid) :
    cartQty ((k, it) :: rest) pid = cartQty rest pid := by
  simp [cartQty, h]

theorem cartLookup_cons_self (it : CartItem) (rest : Cart) (pid : Nat) :
    cartLookup ((pid, it) :: rest) pid = some it := by
  simp [cartLookup]

theorem cartLookup_cons_ne (k : Nat) (it : CartItem) (rest : Cart) (pid : Nat)
    (h : ¬ k = pid) :
    cartLookup ((k, it) :: rest) pid = cartLookup rest pid := by
  simp [cartLookup, h]

theorem cartUpdate_qty (c : Cart) (pid : Nat) (q : ℤ) (price : ℚ) (nm : String) :
    cartQty (cartUpdate c pid q price nm) pid = cartQty c pid + q := by
  induction c with
  | nil => simp [cartUpdate, cartQty]
  | cons e rest ih =>
    obtain ⟨k, it⟩ := e
    by_cases h : k = pid
    · subst h
      have e1 : cartUpdate ((k, it) :: rest) k q price nm
          = (k, { quantity := it.quantity + q, price := price, name := nm }) :: rest := by
        simp [cartUpdate]
      rw [e1, cartQty_cons_self, cartQty_cons_self]
      ring
    · have e2 : cartUpdate ((k, it) :: rest) pid q price nm
          = (k, it) :: cartUpdate rest pid q price nm := by
        simp [cartUpdate, h]
      rw [e2, cartQty_cons_ne k it _ pid h, cartQty_cons_ne k it rest pid h, ih]

theorem cartLookup_update_self (c : Cart) (pid : Nat) (q : ℤ) (price : ℚ) (nm : String)
    (it : CartItem) (hit : cartLookup c pid = some it) :
    cartLookup (cartUpdate c pid q price nm) pid
      = some { quantity := it.quantity + q, price := price, name := nm } := by
  induction c with
  | nil => simp [cartLookup] at hit
  | cons e rest ih =>
    obtain ⟨k, v⟩ := e
    by_cases h : k = pid
    · subst h
      have hv : v = it := by
        have h2 := hit
        rw [cartLookup_cons_self] at h2
        exact Option.some.inj h2
      subst hv
      have e1 : cartUpdate ((k, v) :: rest) k q price nm
          = (k, { quantity := v.quantity + q, price := price, name := nm }) :: rest := by
        simp [cartUpdate]
      rw [e1, cartLookup_cons_self]
    · have e2 : cartUpdate ((k, v) :: rest) pid q price nm
          = (k, v) :: cartUpdate rest pid q price nm := by
        simp [cartUpdate, h]
      rw [e2, cartLookup_cons_ne k v _ pid h]
      rw [cartLookup_cons_ne k v rest pid h] at hit
      exact ih hit

theorem sumQuantites_cartToDetails (c : Cart) (pid : Nat) :
    sumQuantites (cartToDetails c) pid = cartQty c pid := by
  induction c with
  | nil => rfl
  | cons e rest ih =>
    obtain ⟨k, it⟩ := e
    have e1 : cartToDetails ((k, it) :: rest)
        = { produit_id := k, quantite := it.quantity, prix_achat := it.price }
            :: cartToDetails rest := rfl
    rw [e1]
    show sumPairs _ pid = _
    rw [List.map_cons, sumPairs_cons]
    have e2 : sumPairs ((cartToDetails rest).map (fun d => (d.produit_id, d.quantite))) pid
        = cartQty rest pid := ih
    rw [e2, cartQty_cons]

/-- An operation whose numeric inputs respect the UI constraints: products are
created with non-negative stock and cart additions carry non-negative
quantities (`st.number_input` enforces `min_value=1` in the front-end). -/
def goodOp : Op → Bool
  | Op.addToCart _ q _ => 0 ≤ q
  | Op.createProduit p => 0 ≤ p.stock_actuel
  | _ => true

theorem updateStock_nonneg (ps : List Produit) (pid : Nat) (q : ℤ)
    (hps : ∀ p ∈ ps, 0 ≤ p.stock_actuel) (hq : 0 ≤ q) :
    ∀ p ∈ updateStock ps pid q, 0 ≤ p.stock_actuel := by
  induction ps with
  | nil => simp [updateStock]
  | cons p rest ih =>
    have hp := hps p (List.mem_cons_self p rest)
    have hrest : ∀ x ∈ rest, 0 ≤ x.stock_actuel :=
      fun x hx => hps x (List.mem_cons_of_mem p hx)
    by_cases h : p.id = pid
    · intro x hx
      rw [updateStock, if_pos h] at hx
      rcases List.mem_cons.mp hx with h1 | h1
      · rw [h1]
        exact add_nonneg hp hq
      · exact hrest x h1
    · intro x hx
      rw [updateStock, if_neg h] at hx
      rcases List.mem_cons.mp hx with h1 | h1
      · rw [h1]
        exact hp
      · exact ih hrest x h1

theorem applyStockUpdates_nonneg (us : List (Nat × ℤ)) (ps : List Produit)
    (hps : ∀ p ∈ ps, 0 ≤ p.stock_actuel) (hus : ∀ u ∈ us, 0 ≤ u.2) :
    ∀ p ∈ applyStockUpdates ps us, 0 ≤ p.stock_actuel := by
  induction us generalizing ps with
  | nil => exact hps
  | cons u rest ih =>
    have hstep : applyStockUpdates ps (u :: rest)
        = applyStockUpdates (updateStock ps u.1 u.2) rest := rfl
    rw [hstep]
    exact ih (updateStock ps u.1 u.2)
      (updateStock_nonneg ps u.1 u.2 hps (hus u (List.mem_cons_self u rest)))
      (fun x hx => hus x (List.mem_cons_of_mem u hx))

theorem cartUpdate_nonneg (c : Cart) (pid : Nat) (q : ℤ) (price : ℚ) (nm : String)
    (hc : ∀ e ∈ c, 0 ≤ e.2.quantity) (hq : 0 ≤ q) :
    ∀ e ∈ cartUpdate c pid q price nm, 0 ≤ e.2.quantity := by
  induction c with
  | nil =>
    intro e he
    rw [cartUpdate] at he
    rcases List.mem_cons.mp he with h1 | h1
    · rw [h1]
      exact hq
    · simp at h1
  | cons x rest ih =>
    obtain ⟨k, it⟩ := x
    have hx := hc (k, it) (List.mem_cons_self (k, it) rest)
    have hrest : ∀ e ∈ rest, 0 ≤ e.2.quantity :=
      fun e he => hc e (List.mem_cons_of_mem (k, it) he)
    by_cases h : k = pid
    · intro e he
      rw [cartUpdate, if_pos h] at he
      rcases List.mem_cons.mp he with h1 | h1
      · rw [h1]
        exact add_nonneg hx hq
      · exact hrest e h1
    · intro e he
      rw [cartUpdate, if_neg h] at he
      rcases List.mem_cons.mp he with h1 | h1
      · rw [h1]
        exact hx
      · exact ih hrest e h1

theorem step_preserves_nonneg (s : AppState) (op : Op)
    (h0 : ∀ p ∈ s.db.produits, 0 ≤ p.stock_actuel)
    (hc : ∀ e ∈ s.cart, 0 ≤ e.2.quantity)
    (hop : goodOp op = true) :
    (∀ p ∈ (step s op).db.produits, 0 ≤ p.stock_actuel)
      ∧ (∀ e ∈ (step s op).cart, 0 ≤ e.2.quantity) := by
  cases op with
  | addToCart pid q price =>
    have hq : 0 ≤ q := by simpa [goodOp] using hop
    exact ⟨h0, cartUpdate_nonneg s.cart pid q price _ hc hq⟩
  | clearCart =>
    refine ⟨h0, ?_⟩
    intro e he
    simp [step, clear_cart] at he
  | finalize fid soc =>
    by_cases hemp : s.cart = []
    · constructor
      · intro p hp
        exact h0 p (by simpa [step, finalize_purchase, hemp] using hp)
      · intro e he
        simp [step, finalize_purchase, hemp] at he
    · constructor
      · intro p hp
        have hp' : p ∈ applyStockUpdates s.db.produits
            ((cartToDetails s.cart).map (fun d => (d.produit_id, d.quantite))) := by
          have e1 : (step s (Op.finalize fid soc)).db.produits
              = applyStockUpdates s.db.produits
                  ((cartToDetails s.cart).map (fun d => (d.produit_id, d.quantite))) := by
            simp only [step, finalize_purchase, if_neg hemp]
            exact processDetails_produits _ _ _
          rwa [e1] at hp
        refine applyStockUpdates_nonneg _ _ h0 ?_ p hp'
        intro u hu
        rcases List.mem_map.mp hu with ⟨d, hd, rfl⟩
        rcases List.mem_map.mp hd with ⟨e, he, rfl⟩
        exact hc e he
      · intro e he
        simp [step, finalize_purchase, if_neg hemp] at he
  | createProduit p =>
    have hps : 0 ≤ p.stock_actuel := by simpa [goodOp] using hop
    refine ⟨?_, hc⟩
    intro x hx
    simp only [step, create_produit] at hx
    rcases List.mem_append.mp hx with h1 | h1
    · exact h0 x h1
    · rcases List.mem_singleton.mp h1 with rfl
      exact hps

theorem run_preserves_nonneg (ops : List Op) (s : AppState)
    (h0 : ∀ p ∈ s.db.produits, 0 ≤ p.stock_actuel)
    (hc : ∀ e ∈ s.cart, 0 ≤ e.2.quantity)
    (hops : ∀ op ∈ ops, goodOp op = true) :
    (∀ p ∈ (run s ops).db.produits, 0 ≤ p.stock_actuel)
      ∧ (∀ e ∈ (run s ops).cart, 0 ≤ e.2.quantity) := by
  induction ops generalizing s with
  | nil => exact ⟨h0, hc⟩
  | cons op rest ih =>
    have hstep := step_preserves_nonneg s op h0 hc (hops op (List.mem_cons_self op rest))
    exact ih (step s op) hstep.1 hstep.2 (fun x hx => hops x (List.mem_cons_of_mem op hx))

theorem create_commande_commandes (db : DB) (c : CommandeCreate) :
    (create_commande db c).1.commandes
      = db.commandes ++
        [{ id := db.nextCommandeId, fournisseur_id := c.fournisseur_id
           societe := c.societe, statut := c.statut, cout_total := coutTotal c.details }] := by
  show (processDetails _ _ c.details).commandes = _
  rw [processDetails_commandes]

theorem create_commande_details (db : DB) (c : CommandeCreate) :
    (create_commande db c).1.details
      = db.details ++ newDetails db.nextDetailId db.nextCommandeId c.details := by
  show (processDetails _ _ c.details).details = _
  rw [processDetails_details]

theorem newDetails_length (ds : List DetailCommandeBase) (i cid : Nat) :
    (newDetails i cid ds).length = ds.length := by
  induction ds generalizing i with
  | nil => rfl
  | cons d rest ih => simp [newDetails, ih]

theorem coutTotal_cart (c : Cart) :
    coutTotal (cartToDetails c) = (c.map (fun e => (e.2.quantity : ℚ) * e.2.price)).sum := by
  rw [coutTotal_eq_sum, cartToDetails, List.map_map]
  rfl

theorem foldl_updateStock_eq (ps : List Produit) (ds : List DetailCommande) :
    ds.foldl (fun acc d => updateStock acc d.produit_id d.quantite) ps
      = applyStockUpdates ps (ds.map (fun d => (d.produit_id, d.quantite))) := by
  rw [applyStockUpdates, List.foldl_map]

/-- Quantity restored to a product when an order is deleted: the sum of the
quantities of the order's lines referencing that product. -/
def restoredQty (db : DB) (oid : Nat) (pid : Nat) : ℤ :=
  sumPairs ((db.details.filter (fun d => d.commande_id = oid)).map
    (fun d => (d.produit_id, d.quantite))) pid

/- Concrete fixtures used by the counterexamples and witnesses. -/

def emptyDB : DB :=
  { produits := [], fournisseurs := [], commandes := [], details := []
    nextProduitId := 1, nextFournisseurId := 1, nextCommandeId := 1, nextDetailId := 1 }

def emptyState : AppState := { db := emptyDB, cart := [] }

def dbA : DB :=
  { produits := [{ id := 1, nom := "A", reference := "R1", prix_unitaire := 500, stock_actuel := 10 }]
    fournisseurs := [{ id := 1, nom := "F" }]
    commandes := [], details := []
    nextProduitId := 2, nextFournisseurId := 2, nextCommandeId := 1, nextDetailId := 1 }

def stateA : AppState := { db := dbA, cart := [] }

def reqA : CommandeCreate :=
  { fournisseur_id := 1, societe := "X", statut := "En attente"
    details := [{ produit_id := 1, quantite := 3, prix_achat := 500 }] }

/-- C1: for every order-creation request whose details reference existing
products, `POST /commandes/` increases each referenced product's persisted
stock by the total quantity of its lines, and the created order is returned
with its computed fields and its nested line details mirroring the request. -/
theorem create_commande_increments_stock_and_returns_details (db : DB) (c : CommandeCreate)
    (_hex : ∀ d ∈ c.details, ∃ p ∈ db.produits, p.id = d.produit_id)
    (hfresh : ∀ d ∈ db.details, d.commande_id ≠ db.nextCommandeId) :
    (∀ pid, stockOf (create_commande db c).1 pid
        = (stockOf db pid).map (fun v => v + sumQuantites c.details pid))
    ∧ (create_commande db c).2
        = { id := db.nextCommandeId, fournisseur_id := c.fournisseur_id
            societe := c.societe, statut := c.statut, cout_total := coutTotal c.details }
    ∧ (create_commande db c).2 ∈ (create_commande db c).1.commandes
    ∧ (orderDetails (create_commande db c).1 (create_commande db c).2.id).map
        (fun d => (d.produit_id, d.quantite, d.prix_achat))
      = c.details.map (fun d => (d.produit_id, d.quantite, d.prix_achat)) := by
  refine ⟨fun pid => create_commande_stockOf db c pid, rfl, ?_, ?_⟩
  · rw [create_commande_commandes]
    exact List.mem_append_right _ (List.mem_singleton.mpr rfl)
  · show (orderDetails (create_commande db c).1 db.nextCommandeId).map _ = _
    rw [orderDetails_create_commande db c hfresh, newDetails_proj]

theorem create_commande_increments_stock_witness :
    (∀ d ∈ reqA.details, ∃ p ∈ dbA.produits, p.id = d.produit_id)
    ∧ (∀ d ∈ dbA.details, d.commande_id ≠ dbA.nextCommandeId)
    ∧ stockOf (create_commande dbA reqA).1 1 = some 13 := by
  refine ⟨by decide, by decide, ?_⟩
  have h := create_commande_increments_stock_and_returns_details dbA reqA
    (by decide) (by decide)
  rw [h.1 1]
  decide

/-- C2 counterexample: with product A at stock 10 and `add_to_cart(A, 3)`,
the stock before finalize is 10 (not 7: add_to_cart deducts nothing), and the
finalize step changes it to 13 (POST /commandes/ increments stock), so the
finalize step does not leave the persisted stock unchanged. -/
theorem finalize_purchase_changes_stock_cex :
    stockOf (add_to_cart stateA 1 3 500).db 1 = some 10
    ∧ stockOf ((finalize_purchase (add_to_cart stateA 1 3 500) 1 "X").1).db 1 = some 13
    ∧ stockOf ((finalize_purchase (add_to_cart stateA 1 3 500) 1 "X").1).db 1
        ≠ stockOf (add_to_cart stateA 1 3 500).db 1
    ∧ stockOf ((finalize_purchase (add_to_cart stateA 1 3 500) 1 "X").1).db 1 ≠ some 7 := by
  decide

/-- C2 amended: for every finalize_purchase call on a non-empty cart, the
persisted stock of each product is increased by that product's total cart
quantity (the service applies purchase/restocking semantics; add_to_cart
itself never touches stock). -/
theorem finalize_purchase_adds_cart_qty_to_stock (s : AppState) (fid : Nat) (soc : String)
    (pid : Nat) (hne : s.cart ≠ []) :
    stockOf (finalize_purchase s fid soc).1.db pid
      = (stockOf s.db pid).map (fun v => v + cartQty s.cart pid) := by
  have e0 : (finalize_purchase s fid soc).1.db
      = (create_commande s.db
          { fournisseur_id := fid, societe := soc, statut := "En attente"
            details := cartToDetails s.cart }).1 := by
    rw [finalize_purchase, if_neg hne]
  rw [e0, create_commande_stockOf, sumQuantites_cartToDetails]

theorem finalize_purchase_adds_cart_qty_witness :
    (add_to_cart stateA 1 3 500).cart ≠ []
    ∧ stockOf (finalize_purchase (add_to_cart stateA 1 3 500) 1 "X").1.db 1 = some 13 := by
  refine ⟨by decide, ?_⟩
  rw [finalize_purchase_adds_cart_qty_to_stock (add_to_cart stateA 1 3 500) 1 "X" 1 (by decide)]
  decide

/-- C3: finalize_purchase on a non-empty cart succeeds, creates exactly one
new Order whose cout_total is the sum of quantity times snapshot price over
the cart, creates one OrderLine per cart entry carrying the entry's quantity
and price, and empties the cart. -/
theorem finalize_purchase_creates_single_order (s : AppState) (fid : Nat) (soc : String)
    (hne : s.cart ≠ [])
    (hfresh : ∀ d ∈ s.db.details, d.commande_id ≠ s.db.nextCommandeId) :
    (finalize_purchase s fid soc).2 = true
    ∧ (finalize_purchase s fid soc).1.cart = []
    ∧ (finalize_purchase s fid soc).1.db.commandes
        = s.db.commandes ++
          [{ id := s.db.nextCommandeId, fournisseur_id := fid, societe := soc
             statut := "En attente"
             cout_total := (s.cart.map (fun e => (e.2.quantity : ℚ) * e.2.price)).sum }]
    ∧ (orderDetails (finalize_purchase s fid soc).1.db s.db.nextCommandeId).map
        (fun d => (d.produit_id, d.quantite, d.prix_achat))
      = s.cart.map (fun e => (e.1, e.2.quantity, e.2.price))
    ∧ (finalize_purchase s fid soc).1.db.details.length
        = s.db.details.length + s.cart.length := by
  have e0 : finalize_purchase s fid soc
      = ({ db := (create_commande s.db
            { fournisseur_id := fid, societe := soc, statut := "En attente"
              details := cartToDetails s.cart }).1, cart := [] }, true) := by
    rw [finalize_purchase, if_neg hne]
  refine ⟨by rw [e0], by rw [e0], ?_, ?_, ?_⟩
  · rw [e0]
    show (create_commande s.db _).1.commandes = _
    rw [create_commande_commandes, coutTotal_cart]
  · rw [e0]
    show (orderDetails (create_commande s.db _).1 s.db.nextCommandeId).map _ = _
    rw [orderDetails_create_commande _ _ hfresh, newDetails_proj, cartToDetails,
      List.map_map]
    rfl
  · rw [e0]
    show (create_commande s.db _).1.details.length = _
    rw [create_commande_details, List.length_append, newDetails_length, cartToDetails,
      List.length_map]

theorem finalize_purchase_creates_single_order_witness :
    (add_to_cart stateA 1 3 500).cart ≠ []
    ∧ (∀ d ∈ (add_to_cart stateA 1 3 500).db.details,
        d.commande_id ≠ (add_to_cart stateA 1 3 500).db.nextCommandeId)
    ∧ (finalize_purchase (add_to_cart stateA 1 3 500) 1 "X").2 = true
    ∧ (finalize_purchase (add_to_cart stateA 1 3 500) 1 "X").1.db.commandes
        = dbA.commandes ++
          [{ id := 1, fournisseur_id := 1, societe := "X", statut := "En attente"
             cout_total := 1500 }] := by
  have h := finalize_purchase_creates_single_order (add_to_cart stateA 1 3 500) 1 "X"
    (by decide) (by decide)
  refine ⟨by decide, by decide, h.1, ?_⟩
  rw [h.2.2.1]
  simp only [add_to_cart, stateA, dbA, cartUpdate]
  norm_num

def dbB : DB :=
  { produits := [{ id := 1, nom := "B", reference := "R2", prix_unitaire := 500, stock_actuel := 1 }]
    fournisseurs := [{ id := 1, nom := "F" }]
    commandes := [], details := []
    nextProduitId := 2, nextFournisseurId := 2, nextCommandeId := 1, nextDetailId := 1 }

def stateB : AppState := { db := dbB, cart := [] }

/-- C4 counterexample: with product 1 at stock 1, `add_to_cart(1, 5, ...)`
requests more than the available stock yet is not rejected: the cart gains the
entry (so the cart is not left unchanged and no shortfall error occurs). -/
theorem add_to_cart_accepts_excess_quantity_cex :
    (1 : ℤ) < 5
    ∧ stockOf stateB.db 1 = some 1
    ∧ cartQty (add_to_cart stateB 1 5 500).cart 1 = 5
    ∧ (add_to_cart stateB 1 5 500).cart ≠ stateB.cart := by
  refine ⟨by decide, by decide, by decide, ?_⟩
  intro h
  have h5 : cartQty (add_to_cart stateB 1 5 500).cart 1 = 5 := by decide
  rw [h] at h5
  exact absurd h5 (by decide)

/-- C4 amended: `add_to_cart` performs no availability check: even when the
requested quantity exceeds the product's current stock, the persisted store is
left untouched while the cart entry is created or incremented by the full
quantity, and no error is reported. -/
theorem add_to_cart_ignores_stock_limit (s : AppState) (pid : Nat) (q : ℤ) (price : ℚ)
    (p : Produit) (_hp : s.db.produits.find? (fun x => x.id = pid) = some p)
    (_hq : p.stock_actuel < q) :
    (add_to_cart s pid q price).db = s.db
    ∧ cartQty (add_to_cart s pid q price).cart pid = cartQty s.cart pid + q :=
  ⟨rfl, cartUpdate_qty s.cart pid q price (productName s.db.produits pid)⟩

theorem add_to_cart_ignores_stock_limit_witness :
    stateB.db.produits.find? (fun x => x.id = 1)
        = some { id := 1, nom := "B", reference := "R2", prix_unitaire := 500, stock_actuel := 1 }
    ∧ ((1 : ℤ) < 5)
    ∧ (add_to_cart stateB 1 5 500).db = stateB.db
    ∧ cartQty (add_to_cart stateB 1 5 500).cart 1 = cartQty stateB.cart 1 + 5 := by
  refine ⟨?_, by decide, ?_, ?_⟩
  · rfl
  · exact (add_to_cart_ignores_stock_limit stateB 1 5 500
      { id := 1, nom := "B", reference := "R2", prix_unitaire := 500, stock_actuel := 1 }
      rfl (by decide)).1
  · exact (add_to_cart_ignores_stock_limit stateB 1 5 500
      { id := 1, nom := "B", reference := "R2", prix_unitaire := 500, stock_actuel := 1 }
      rfl (by decide)).2

def dbC : DB :=
  { produits := [{ id := 1, nom := "A", reference := "R1", prix_unitaire := 100, stock_actuel := 5 },
                 { id := 2, nom := "B", reference := "R2", prix_unitaire := 50, stock_actuel := 2 }]
    fournisseurs := [{ id := 1, nom := "F" }]
    commandes := [], details := []
    nextProduitId := 3, nextFournisseurId := 2, nextCommandeId := 1, nextDetailId := 1 }

def stateC : AppState :=
  { db := dbC
    cart := [(1, { quantity := 3, price := 100, name := "A" }),
             (2, { quantity := 1, price := 50, name := "B" })] }

/-- C5 counterexample: with A(stock 5) reserved 3 and B(stock 2) reserved 1 in
the cart, clearing the cart leaves stock(A) = 5 and stock(B) = 2 instead of
restoring 5+3 and 2+1: the handler only empties the session cart. -/
theorem clear_cart_does_not_restore_stock_cex :
    (clear_cart stateC).cart = []
    ∧ stockOf (clear_cart stateC).db 1 = some 5
    ∧ stockOf (clear_cart stateC).db 2 = some 2
    ∧ stockOf (clear_cart stateC).db 1 ≠ some (5 + 3)
    ∧ stockOf (clear_cart stateC).db 2 ≠ some (2 + 1) := by
  decide

/-- C5 amended: `clear_cart` empties the session cart and leaves every
product's persisted stock (and the whole store) unchanged; no reserved
quantity is added back. -/
theorem clear_cart_leaves_stock_unchanged (s : AppState) :
    (clear_cart s).cart = []
    ∧ (∀ pid, stockOf (clear_cart s).db pid = stockOf s.db pid)
    ∧ (clear_cart s).db = s.db :=
  ⟨rfl, fun _ => rfl, rfl⟩

/-- C6: deleting an existing order restores, for each of its lines, the line's
quantity to the referenced product's stock (lines whose product no longer
exists restore nothing but the rest proceed), removes the order's lines and
its header, and a second delete of the same order fails with not-found
without touching the store.  The server route is modelled from the spec
(§4.3) because `DELETE /commandes/{id}` is absent from `src/api.py`. -/
theorem delete_order_restores_stock_then_not_found (db : DB) (oid : Nat) (c : Commande)
    (hfind : db.commandes.find? (fun x => x.id = oid) = some c) :
    ∃ db', delete_order db oid = Except.ok db'
      ∧ (∀ pid, stockOf db' pid = (stockOf db pid).map (fun v => v + restoredQty db oid pid))
      ∧ db'.details = db.details.filter (fun d => ¬ d.commande_id = oid)
      ∧ db'.commandes = db.commandes.filter (fun x => ¬ x.id = oid)
      ∧ delete_order db' oid = Except.error "Commande not found" := by
  have e0 : delete_order db oid
      = Except.ok
          { db with
            produits := (db.details.filter (fun d => d.commande_id = oid)).foldl
              (fun ps d => updateStock ps d.produit_id d.quantite) db.produits
            details := db.details.filter (fun d => ¬ d.commande_id = oid)
            commandes := db.commandes.filter (fun x => ¬ x.id = oid) } := by
    rw [delete_order, hfind]
  refine ⟨_, e0, ?_, rfl, rfl, ?_⟩
  · intro pid
    show (((db.details.filter (fun d => d.commande_id = oid)).foldl
        (fun ps d => updateStock ps d.produit_id d.quantite) db.produits).find?
          (fun p => p.id = pid)).map Produit.stock_actuel = _
    rw [foldl_updateStock_eq, applyStockUpdates_find]
    unfold stockOf restoredQty
    cases db.produits.find? (fun p => p.id = pid) <;> simp
  · have hnone : (db.commandes.filter (fun x => ¬ x.id = oid)).find?
        (fun x => x.id = oid) = none := by
      rw [List.find?_eq_none]
      intro x hx
      have h2 := (List.mem_filter.mp hx).2
      simpa using h2
    rw [delete_order]
    show (match (db.commandes.filter (fun x => ¬ x.id = oid)).find?
        (fun x => x.id = oid) with
      | none => Except.error "Commande not found"
      | some _ => _) = Except.error "Commande not found"
    rw [hnone]

def dbD : DB :=
  { produits := [{ id := 1, nom := "A", reference := "R1", prix_unitaire := 500, stock_actuel := 10 }]
    fournisseurs := [{ id := 1, nom := "F" }]
    commandes := [{ id := 1, fournisseur_id := 1, societe := "X", statut := "En attente"
                    cout_total := 1500 }]
    details := [{ id := 1, commande_id := 1, produit_id := 1, quantite := 3, prix_achat := 500 }]
    nextProduitId := 2, nextFournisseurId := 2, nextCommandeId := 2, nextDetailId := 2 }

theorem delete_order_restores_stock_witness :
    (∃ c, dbD.commandes.find? (fun x => x.id = 1) = some c)
    ∧ ∃ db', delete_order dbD 1 = Except.ok db'
        ∧ stockOf db' 1 = some 13
        ∧ db'.commandes = []
        ∧ delete_order db' 1 = Except.error "Commande not found" := by
  refine ⟨⟨{ id := 1, fournisseur_id := 1, societe := "X", statut := "En attente"
             cout_total := 1500 }, by decide⟩, ?_⟩
  obtain ⟨db', h1, h2, h3, h4, h5⟩ :=
    delete_order_restores_stock_then_not_found dbD 1
      { id := 1, fournisseur_id := 1, societe := "X", statut := "En attente"
        cout_total := 1500 } (by decide)
  refine ⟨db', h1, ?_, ?_, h5⟩
  · rw [h2 1]
    decide
  · rw [h4]
    decide

/-- C7 counterexample: `POST /produits/` accepts a negative `stock_actuel`
without validation, so a single product-creation step reaches a state with
stock(P) < 0, violating the unconditional invariant. -/
theorem negative_stock_reachable_cex :
    stockOf (run emptyState
        [Op.createProduit { nom := "X", reference := "R", prix_unitaire := 1, stock_actuel := -5 }]).db 1
      = some (-5)
    ∧ ¬ ((-5 : ℤ) ≥ 0) := by
  decide

/-- C7 amended: provided every product creation carries a non-negative
`stock_actuel` and every cart addition a non-negative quantity (as the UI
enforces), stock(P) ≥ 0 holds after any sequence of add_to_cart, clear_cart,
finalize_purchase and product-creation operations: no operation ever
decreases stock. -/
theorem stock_nonneg_under_guarded_ops (s : AppState) (ops : List Op)
    (h0 : ∀ p ∈ s.db.produits, 0 ≤ p.stock_actuel)
    (hc : ∀ e ∈ s.cart, 0 ≤ e.2.quantity)
    (hops : ∀ op ∈ ops, goodOp op = true) :
    ∀ p ∈ (run s ops).db.produits, 0 ≤ p.stock_actuel :=
  (run_preserves_nonneg ops s h0 hc hops).1

theorem stock_nonneg_under_guarded_ops_witness :
    (∀ p ∈ emptyState.db.produits, 0 ≤ p.stock_actuel)
    ∧ (∀ e ∈ emptyState.cart, 0 ≤ e.2.quantity)
    ∧ (∀ op ∈ [Op.createProduit { nom := "A", reference := "R", prix_unitaire := 5, stock_actuel := 10 },
               Op.addToCart 1 3 5, Op.finalize 1 "X", Op.clearCart], goodOp op = true)
    ∧ (∀ p ∈ (run emptyState
          [Op.createProduit { nom := "A", reference := "R", prix_unitaire := 5, stock_actuel := 10 },
           Op.addToCart 1 3 5, Op.finalize 1 "X", Op.clearCart]).db.produits,
        0 ≤ p.stock_actuel) := by
  refine ⟨by decide, by decide, by decide, ?_⟩
  exact stock_nonneg_under_guarded_ops emptyState _ (by decide) (by decide) (by decide)

def reqDangling : CommandeCreate :=
  { fournisseur_id := 1, societe := "X", statut := "En attente"
    details := [{ produit_id := 999, quantite := 2, prix_achat := 7 }] }

def reqEmpty : CommandeCreate :=
  { fournisseur_id := 1, societe := "X", statut := "En attente", details := [] }

/-- C8 counterexample: the create-path checks neither product existence nor
non-emptiness: a request whose line references the nonexistent product 999 is
persisted with a dangling product reference, and a request with an empty
details list persists an order with zero lines. -/
theorem create_commande_integrity_violations_cex :
    (∃ d ∈ (create_commande dbA reqDangling).1.details,
        d.produit_id = 999 ∧ ∀ p ∈ (create_commande dbA reqDangling).1.produits, p.id ≠ 999)
    ∧ ((create_commande dbA reqEmpty).2.id
          ∈ (create_commande dbA reqEmpty).1.commandes.map Commande.id
        ∧ orderDetails (create_commande dbA reqEmpty).1 (create_commande dbA reqEmpty).2.id
            = []) := by
  decide

/-- C8 amended: every OrderLine persisted by the create-path references an
existing Order (referential integrity on the order side is preserved), but
the path does not guarantee that referenced products exist nor that the order
has at least one line. -/
theorem create_commande_preserves_order_reference (db : DB) (c : CommandeCreate)
    (hwf : ∀ d ∈ db.details, ∃ cc ∈ db.commandes, d.commande_id = cc.id) :
    ∀ d ∈ (create_commande db c).1.details,
      ∃ cc ∈ (create_commande db c).1.commandes, d.commande_id = cc.id := by
  intro d hd
  rw [create_commande_details] at hd
  rw [create_commande_commandes]
  rcases List.mem_append.mp hd with h1 | h1
  · obtain ⟨cc, hcc, heq⟩ := hwf d h1
    exact ⟨cc, List.mem_append_left _ hcc, heq⟩
  · refine ⟨_, List.mem_append_right _ (List.mem_singleton.mpr rfl), ?_⟩
    exact newDetails_commande_id c.details db.nextDetailId db.nextCommandeId d h1

theorem create_commande_preserves_order_reference_witness :
    (∀ d ∈ dbD.details, ∃ cc ∈ dbD.commandes, d.commande_id = cc.id)
    ∧ (∀ d ∈ (create_commande dbD reqA).1.details,
        ∃ cc ∈ (create_commande dbD reqA).1.commandes, d.commande_id = cc.id) :=
  ⟨by decide, create_commande_preserves_order_reference dbD reqA (by decide)⟩

/-- C10: when the product id already has a cart entry, `add_to_cart`
increments the entry's quantity by the new quantity and overwrites the stored
unit price and product name with the values of this most recent call, so the
price later submitted for that product is the latest one. -/
theorem add_to_cart_updates_existing_entry (s : AppState) (pid : Nat) (q : ℤ) (price : ℚ)
    (it : CartItem) (hit : cartLookup s.cart pid = some it) :
    cartLookup (add_to_cart s pid q price).cart pid
      = some { quantity := it.quantity + q, price := price
               name := productName s.db.produits pid } :=
  cartLookup_update_self s.cart pid q price (productName s.db.produits pid) it hit

theorem add_to_cart_updates_existing_entry_witness :
    cartLookup stateC.cart 1 = some { quantity := 3, price := 100, name := "A" }
    ∧ cartLookup (add_to_cart stateC 1 2 999).cart 1
        = some { quantity := 3 + 2, price := 999, name := productName stateC.db.produits 1 } :=
  ⟨rfl, add_to_cart_updates_existing_entry stateC 1 2 999
    { quantity := 3, price := 100, name := "A" } rfl⟩

end GestionAchats
